import Mathlib

/-!
Shallow embedding of `src/ga4_to_excel.py` (class `GA4SheetsSync`): the
data formatting step (`format_dataframe`), the read of existing sheet data
(`get_existing_sheet_data`), the merge / dedup-by-date / sort logic of
`update_google_sheet`, the header formatting (`format_sheet_header`) and
the driver (`sync_data`).

A pandas DataFrame is modelled as a list of column names together with a
list of rows of cells.  A cell is a string, an Int64 integer, a float
(modelled as a rational number) or the missing marker (pandas NaN / NaT /
None).  Fallible external operations (opening the sheet, reading it,
writing it, formatting the header) are modelled by `Except` / explicit
failure flags, mirroring the Python try/except structure.
-/

/-- A DataFrame cell: a string, an Int64 integer, a float (modelled as a
rational), or the missing marker (NaN / NaT). -/
inductive Val : Type where
  | s (x : String)
  | i (n : Int)
  | q (x : ℚ)
  | na
deriving DecidableEq, Repr

/-- Decimal digit test for a character. -/
def isDig (c : Char) : Bool := decide ('0' ≤ c ∧ c ≤ '9')

/-- All characters are decimal digits. -/
def allDigits (cs : List Char) : Bool := cs.all isDig

/-- Value of a digit string read in base 10 (empty list reads as 0). -/
def digitsToNat (cs : List Char) : Nat :=
  cs.foldl (fun a c => 10 * a + (c.toNat - 48)) 0

/-- Split a character list at every '.' (used to parse decimal numerals). -/
def splitDotAux : List Char → List Char → List (List Char)
  | [], acc => [acc.reverse]
  | c :: rest, acc =>
      if c = '.' then acc.reverse :: splitDotAux rest []
      else splitDotAux rest (c :: acc)

/-- Split a character list at '.' separators. -/
def splitDot (cs : List Char) : List (List Char) := splitDotAux cs []

/-- The fragment of `pd.to_numeric` exercised by GA4 string values: an
optionally signed plain decimal numeral (`123`, `-4`, `3.75`, `0.4831`,
`.5`, `12.`) parses to its rational value; every other string is
unparseable (in pandas: coerced to NaN, since `errors='coerce'`).
Exotic numeric spellings (exponents, `inf`, `nan`, surrounding
whitespace) are outside the fragment and treated as unparseable; no claim
or counterexample in this file depends on such inputs. -/
def parseRat (s : String) : Option ℚ :=
  let cs := s.data
  let (neg, body) :=
    match cs with
    | '-' :: rest => (true, rest)
    | '+' :: rest => (false, rest)
    | rest => (false, rest)
  match splitDot body with
  | [ip] =>
      if ip ≠ [] ∧ allDigits ip then
        some (if neg then -(digitsToNat ip : ℚ) else (digitsToNat ip : ℚ))
      else none
  | [ip, fp] =>
      if (ip ≠ [] ∨ fp ≠ []) ∧ allDigits ip ∧ allDigits fp then
        let v : ℚ := (digitsToNat ip : ℚ) + (digitsToNat fp : ℚ) / (10 : ℚ) ^ fp.length
        some (if neg then -v else v)
      else none
  | _ => none

/-- Cell-level `pd.to_numeric(·, errors='coerce')`: numeric strings parse
to their value, unparseable strings coerce to NaN, numeric cells pass
through, NaN stays NaN. -/
def toNumeric (v : Val) : Val :=
  match v with
  | .s str =>
      match parseRat str with
      | some x => .q x
      | none => .na
  | .i n => .i n
  | .q x => .q x
  | .na => .na

/-- Round-half-to-even to an integer (the rounding used by
`numpy`/pandas `.round`). -/
def rhe (x : ℚ) : ℤ :=
  let f := ⌊x⌋
  let r := x - (f : ℚ)
  if r < 1 / 2 then f
  else if r > 1 / 2 then f + 1
  else if f % 2 = 0 then f else f + 1

/-- Cell-level `.round(4)`: floats are rounded half-to-even at the fourth
decimal place, integers are unchanged, NaN stays NaN (as in pandas). -/
def round4 (v : Val) : Val :=
  match v with
  | .q x => .q ((rhe (x * 10000) : ℚ) / 10000)
  | .i n => .i n
  | .s str => .s str
  | .na => .na

/-- Cell-level `.fillna(0)`: NaN becomes the float 0, other cells are
unchanged. -/
def fillna0 (v : Val) : Val :=
  match v with
  | .na => .q 0
  | v => v

/-- Cell-level `.astype('Int64')`: a float with integral value casts to
that integer, an integer is unchanged.  On a non-integral float pandas
raises (cannot safely cast); that case is modelled as `na` and is never
reached under the hypotheses of the theorems below.  Strings never reach
this point in the pipeline (they pass through `to_numeric` first). -/
def astypeInt64 (v : Val) : Val :=
  match v with
  | .q x => if x.den = 1 then .i x.num else .na
  | .i n => .i n
  | .s _ => .na
  | .na => .na

/-- The ratio/duration metrics singled out at line 155 of
`ga4_to_excel.py`. -/
def ratioMetrics : List String := ["bounceRate", "averageSessionDuration"]

/-- Line 156: `pd.to_numeric(df[metric], errors='coerce').round(4)`. -/
def ratioCoerce (v : Val) : Val := round4 (toNumeric v)

/-- Line 158:
`pd.to_numeric(df[metric], errors='coerce').fillna(0).astype('Int64')`. -/
def countCoerce (v : Val) : Val := astypeInt64 (fillna0 (toNumeric v))

/-- The per-metric coercion branch of `format_dataframe` (lines 154-158). -/
def coerceMetric (m : String) : Val → Val :=
  if m ∈ ratioMetrics then ratioCoerce else countCoerce

/-- Leap-year test (Gregorian). -/
def isLeap (y : Nat) : Bool := (y % 4 = 0 && y % 100 != 0) || y % 400 = 0

/-- Number of days in a month. -/
def daysInMonth (y m : Nat) : Nat :=
  if m = 2 then (if isLeap y then 29 else 28)
  else if m = 4 ∨ m = 6 ∨ m = 9 ∨ m = 11 then 30
  else 31

/-- Lexicographic order on (year, month, day) triples. -/
def dateTripleLE (y1 m1 d1 y2 m2 d2 : Nat) : Bool :=
  y1 < y2 || (y1 = y2 && (m1 < m2 || (m1 = m2 && d1 ≤ d2)))

/-- The date lies inside the representable range of a nanosecond-resolution
pandas `Timestamp` (`Timestamp.min` = 1677-09-21, `Timestamp.max` =
2262-04-11); `pd.to_datetime(..., errors='coerce')` coerces dates outside
this range to NaT. -/
def inTimestampBounds (y m d : Nat) : Bool :=
  dateTripleLE 1677 9 21 y m d && dateTripleLE y m d 2262 4 11

/-- Line 151:
`pd.to_datetime(df['date'], format='%Y%m%d', errors='coerce').dt.strftime('%Y-%m-%d')`
on one cell string.  A string of exactly eight digits naming a valid
calendar date inside the pandas `Timestamp` range parses and is printed
back with hyphens; everything else coerces to NaT (and `strftime` of NaT
is the missing marker). -/
def formatDate (s : String) : Option String :=
  let cs := s.data
  if cs.length = 8 ∧ allDigits cs then
    let y := digitsToNat (cs.take 4)
    let m := digitsToNat ((cs.drop 4).take 2)
    let d := digitsToNat (cs.drop 6)
    if 1 ≤ m ∧ m ≤ 12 ∧ 1 ≤ d ∧ d ≤ daysInMonth y m ∧ inTimestampBounds y m d then
      some ⟨cs.take 4 ++ ['-'] ++ (cs.drop 4).take 2 ++ ['-'] ++ cs.drop 6⟩
    else none
  else none

/-- The date reformatting of line 151 applied to one cell: a string cell
is reformatted or becomes NaN; a non-string cell never occurs in the date
column of a fetched frame (API dimension values are strings) and coerces
to NaN here. -/
def dateVal (v : Val) : Val :=
  match v with
  | .s str =>
      match formatDate str with
      | some t => .s t
      | none => .na
  | _ => .na

/-- Lexicographic comparison of character lists by code point — exactly
Python's string comparison, which pandas uses when sorting an
object-dtype column of `YYYY-MM-DD` strings. -/
def charListLE : List Char → List Char → Bool
  | [], _ => true
  | _ :: _, [] => false
  | a :: x, b :: y => if a < b then true else if b < a then false else charListLE x y

/-- String comparison by code points (Python `<=` on `str`). -/
def strLE (a b : String) : Bool := charListLE a.data b.data

/-- Comparison of two sort-key cells, as Python compares the values of the
`date` column: strings lexicographically, numbers numerically.  Comparing
a string with a number, or anything with NaN, raises in Python; those
cases are given an arbitrary value here and are never reached (the sort
separates NaN keys out first, and the theorems below hypothesise an
all-string date column). -/
def valLE : Val → Val → Bool
  | .s a, .s b => strLE a b
  | .i a, .i b => decide (a ≤ b)
  | .q a, .q b => decide (a ≤ b)
  | .i a, .q b => decide ((a : ℚ) ≤ b)
  | .q a, .i b => decide (a ≤ (b : ℚ))
  | _, _ => false

/-- A row of a DataFrame: the cells in column order. -/
abbrev Row := List Val

/-- A DataFrame: ordered column names and rows of cells. -/
structure Frame where
  cols : List String
  rows : List Row
deriving DecidableEq, Repr

/-- The empty DataFrame `pd.DataFrame()`. -/
def emptyFrame : Frame := ⟨[], []⟩

/-- Pandas `df.empty`: some axis has length zero. -/
def Frame.isEmpty (f : Frame) : Bool := f.rows.isEmpty || f.cols.isEmpty

/-- Every row has exactly one cell per column (a well-formed DataFrame). -/
def Rect (f : Frame) : Prop := ∀ r ∈ f.rows, r.length = f.cols.length

instance decRect (f : Frame) : Decidable (Rect f) :=
  inferInstanceAs (Decidable (∀ r ∈ f.rows, r.length = f.cols.length))

/-- The cell of row `r` in the column named `c` (first occurrence), given
the frame's column list; `na` when the column is absent or the row too
short. -/
def colOf (cols : List String) (c : String) (r : Row) : Val :=
  r.getD (cols.indexOf c) Val.na

/-- The column of `f` named `c`, as the list of its cells
(`df[c]`). -/
def getCol (f : Frame) (c : String) : List Val :=
  f.rows.map (colOf f.cols c)

/-- Column assignment `df[c] = g(df[c])`: every row's cell in column `c`
is replaced; rows too short to hold the column, or an absent column, are
left unchanged. -/
def mapCol (f : Frame) (c : String) (g : Val → Val) : Frame :=
  ⟨f.cols, f.rows.map (fun r => r.set (f.cols.indexOf c) (g (r.getD (f.cols.indexOf c) Val.na)))⟩

/-- Lines 161-162: `df.insert(0, 'last_updated', now)` followed by
`df.insert(1, 'data_freshness', 'live')` — after both inserts the frame
starts with the two metadata columns, constant per fetch. -/
def addMetadata (f : Frame) (now : String) : Frame :=
  ⟨"last_updated" :: "data_freshness" :: f.cols,
   f.rows.map (fun r => Val.s now :: Val.s "live" :: r)⟩

/-- `GA4SheetsSync.format_dataframe` (lines 144-164): identity on an empty
frame; otherwise reformat the `date` column if present, coerce every
declared metric column by its kind, and prepend the two metadata
columns. -/
def formatDataframe (f : Frame) (metrics : List String) (now : String) : Frame :=
  if f.isEmpty then f
  else
    let f1 := if "date" ∈ f.cols then mapCol f "date" dateVal else f
    let f2 := metrics.foldl (fun acc m => mapCol acc m (coerceMetric m)) f1
    addMetadata f2 now

/-- The DataFrame-building part of `fetch_ga4_data` (lines 111-135): zero
API rows give `pd.DataFrame()`; otherwise the rows of string values are
framed with columns `dimensions ++ metrics` and passed through
`format_dataframe`. -/
def fetchRowsToFrame (apiRows : List (List String)) (dims mets : List String)
    (now : String) : Frame :=
  if apiRows = [] then emptyFrame
  else formatDataframe ⟨dims ++ mets, apiRows.map (fun r => r.map Val.s)⟩ mets now

/-- A row every cell of which is missing (`dropna(how='all')` drops it). -/
def isNaRow (r : Row) : Bool := r.all (fun v => decide (v = Val.na))

/-- `existing_df.dropna(how='all')` (line 173): drop all-NaN rows. -/
def dropEmptyRows (f : Frame) : Frame :=
  ⟨f.cols, f.rows.filter (fun r => !isNaRow r)⟩

/-- `existing_df.dropna(axis=1, how='all')` (line 174): keep the columns
having at least one non-NaN cell (with zero rows every column is
vacuously all-NaN and is dropped, as pandas does). -/
def dropEmptyCols (f : Frame) : Frame :=
  let keep := (List.range f.cols.length).filter
    (fun i => !(f.rows.all (fun r => decide (r.getD i Val.na = Val.na))))
  ⟨keep.map (fun i => f.cols.getD i ""),
   f.rows.map (fun r => keep.map (fun i => r.getD i Val.na))⟩

/-- `GA4SheetsSync.get_existing_sheet_data` (lines 166-185).  Its argument
is the outcome of the underlying `get_as_dataframe` read; every failure is
caught and yields `pd.DataFrame()`, a successful read is cleaned of empty
rows/columns and replaced by `pd.DataFrame()` when empty. -/
def getExistingSheetData (readRes : Except String Frame) : Frame :=
  match readRes with
  | .error _ => emptyFrame
  | .ok f0 =>
      let f1 := dropEmptyCols (dropEmptyRows f0)
      if f1.isEmpty then emptyFrame else f1

/-- `pd.concat([a, b], ignore_index=True)`: columns are aligned by name
(the first frame's columns, then the second's new ones) and every row is
reindexed to the combined column list, missing columns filling with
NaN. -/
def concatFrames (a b : Frame) : Frame :=
  let cols := a.cols ++ b.cols.filter (fun c => !decide (c ∈ a.cols))
  let reindex := fun (g : Frame) (r : Row) =>
    cols.map (fun c => if c ∈ g.cols then r.getD (g.cols.indexOf c) Val.na else Val.na)
  ⟨cols, a.rows.map (reindex a) ++ b.rows.map (reindex b)⟩

/-- Lines 211-228 of `update_google_sheet`: if both frames have a `date`
column and the existing frame is non-empty, drop every existing row whose
date is among the dates common to both frames (`duplicate_dates`), then
either return the new frame (existing side now empty) or concatenate new
rows first. -/
def combineData (df existing : Frame) : Frame :=
  let existing1 :=
    if existing.isEmpty = false ∧ "date" ∈ df.cols ∧ "date" ∈ existing.cols then
      let newDates := getCol df "date"
      let existingDates := getCol existing "date"
      let duplicateDates := newDates.filter (fun d => decide (d ∈ existingDates))
      if duplicateDates ≠ [] then
        ⟨existing.cols,
         existing.rows.filter (fun r => !decide (colOf existing.cols "date" r ∈ duplicateDates))⟩
      else existing
    else existing
  if existing1.isEmpty then df
  else concatFrames df existing1

/-- Stable insertion into an ascending-sorted list: the new element goes
before the first element it compares `le` to, hence after all earlier
equal elements. -/
def insertAsc {α : Type} (le : α → α → Bool) (x : α) : List α → List α
  | [] => [x]
  | y :: l => if le x y then x :: y :: l else y :: insertAsc le x l

/-- Stable ascending insertion sort — the unique stable ascending
arrangement, which is what numpy's argsort produces on the small arrays
(its quicksort switches to a stable insertion sort below its threshold). -/
def sortAsc {α : Type} (le : α → α → Bool) : List α → List α
  | [] => []
  | x :: l => insertAsc le x (sortAsc le l)

/-- Line 232: `final_df.sort_values('date', ascending=False)`.  Pandas
computes the ascending argsort of the non-NaN keys, reverses it, and
appends the NaN keys at the end (`nargsort` with `ascending=False`,
`na_position='last'`).  Consequently the result is the reverse of the
ascending sort of the non-NaN-date rows, followed by the NaN-date rows in
original order. -/
def sortByDateDesc (f : Frame) : Frame :=
  let key := colOf f.cols "date"
  let oks := f.rows.filter (fun r => !decide (key r = Val.na))
  let nas := f.rows.filter (fun r => decide (key r = Val.na))
  ⟨f.cols, (sortAsc (fun a b => valLE (key a) (key b)) oks).reverse ++ nas⟩

/-- Lines 211-232: the frame actually written to the sheet — the combined
frame, sorted by date descending when a date column exists. -/
def updateFinal (df existing : Frame) : Frame :=
  let final := combineData df existing
  if "date" ∈ final.cols then sortByDateDesc final else final

/-- `GA4SheetsSync.format_sheet_header` (lines 247-263): the whole body is
wrapped in try/except, so a formatting failure produces only a logged
warning and never an exception. -/
def formatSheetHeader (formattingFails : Bool) : List String :=
  if formattingFails then ["Header formatting failed"] else []

/-- `GA4SheetsSync.update_google_sheet` (lines 187-245).  Result: `.ok
(none, _)` = returned without touching the sheet (empty input guard,
lines 189-191); `.ok (some final, warnings)` = sheet cleared and
rewritten with `final`; `.error _` = the exception re-raised at line 245.
`openFails` models a failure opening the spreadsheet / worksheet,
`writeFails` a failure of `clear` / `set_with_dataframe`; a read failure
is inside `readRes` and is swallowed by `get_existing_sheet_data`; a
header-formatting failure is swallowed by `format_sheet_header`. -/
def updateGoogleSheet (df : Frame) (readRes : Except String Frame)
    (openFails writeFails formattingFails : Bool) :
    Except String (Option Frame × List String) :=
  if df.isEmpty then .ok (none, ["No data to update"])
  else if openFails then .error "Error updating Google Sheet: open failed"
  else
    let existing := getExistingSheetData readRes
    let final := updateFinal df existing
    if writeFails then .error "Error updating Google Sheet: clear/write failed"
    else .ok (some final, formatSheetHeader formattingFails)

/-- `GA4SheetsSync.sync_data` (lines 265-289): fetch, and short-circuit
(`none`, no sheet interaction at all) when the fetched frame is empty;
otherwise delegate to `update_google_sheet`. -/
def syncData (apiRows : List (List String)) (dims mets : List String) (now : String)
    (readRes : Except String Frame) (openFails writeFails formattingFails : Bool) :
    Option (Except String (Option Frame × List String)) :=
  let df := fetchRowsToFrame apiRows dims mets now
  if df.isEmpty then none
  else some (updateGoogleSheet df readRes openFails writeFails formattingFails)

section ListLemmas

variable {α : Type}

theorem getD_set_self (l : List α) (i : Nat) (x d : α) (h : i < l.length) :
    (l.set i x).getD i d = x := by
  induction l generalizing i with
  | nil => simp at h
  | cons a t ih =>
    cases i with
    | zero => rfl
    | succ n =>
      simp only [List.set, List.getD_cons_succ]
      exact ih n (by simpa using h)

theorem getD_set_ne (l : List α) (i j : Nat) (x d : α) (h : i ≠ j) :
    (l.set i x).getD j d = l.getD j d := by
  induction l generalizing i j with
  | nil => simp
  | cons a t ih =>
    cases i with
    | zero =>
      cases j with
      | zero => exact absurd rfl h
      | succ n => rfl
    | succ m =>
      cases j with
      | zero => rfl
      | succ n =>
        simp only [List.set, List.getD_cons_succ]
        exact ih m n (fun hc => h (by rw [hc]))

theorem set_of_length_le (l : List α) (i : Nat) (x : α) (h : l.length ≤ i) :
    l.set i x = l := by
  induction l generalizing i with
  | nil => rfl
  | cons a t ih =>
    cases i with
    | zero => simp at h
    | succ n =>
      simp only [List.set]
      rw [ih n (by simpa using h)]

theorem getD_length_le (l : List α) (i : Nat) (d : α) (h : l.length ≤ i) :
    l.getD i d = d := by
  induction l generalizing i with
  | nil => simp
  | cons a t ih =>
    cases i with
    | zero => simp at h
    | succ n => simpa using ih n (by simpa using h)

theorem map_getD_indexOf (cols : List String) (r : List α) (hn : cols.Nodup)
    (hl : r.length = cols.length) (d : α) :
    cols.map (fun c => r.getD (cols.indexOf c) d) = r := by
  induction cols generalizing r with
  | nil => cases r with | nil => rfl | cons v vs => simp at hl
  | cons c cs ih =>
    cases r with
    | nil => simp at hl
    | cons v vs =>
      rcases List.nodup_cons.mp hn with ⟨hc, hcs⟩
      simp only [List.map_cons, List.indexOf_cons_self, List.getD_cons_zero, List.cons.injEq]
      refine ⟨trivial, ?_⟩
      have step : ∀ c' ∈ cs, (v :: vs).getD ((c :: cs).indexOf c') d
          = vs.getD (cs.indexOf c') d := by
        intro c' hmem
        have hne : c' ≠ c := fun hh => hc (hh ▸ hmem)
        rw [List.indexOf_cons_ne _ (fun hh => hne hh.symm)]
        rfl
      rw [List.map_congr_left step]
      exact ih vs hcs (by simpa using hl)

theorem my_filter_append_perm (p : α → Bool) (l : List α) :
    List.Perm (l.filter p ++ l.filter (fun a => !p a)) l := by
  induction l with
  | nil => rfl
  | cons a t ih =>
    by_cases h : p a
    · have e1 : List.filter p (a :: t) = a :: List.filter p t := by
        simp [List.filter_cons, h]
      have e2 : List.filter (fun a => !p a) (a :: t) = List.filter (fun a => !p a) t := by
        simp [List.filter_cons, h]
      rw [e1, e2]
      exact ih.cons a
    · have e1 : List.filter p (a :: t) = List.filter p t := by
        simp [List.filter_cons, h]
      have e2 : List.filter (fun a => !p a) (a :: t) = a :: List.filter (fun a => !p a) t := by
        simp [List.filter_cons, h]
      rw [e1, e2]
      exact List.perm_middle.trans (ih.cons a)

end ListLemmas

theorem charListLE_total (x y : List Char) :
    charListLE x y = true ∨ charListLE y x = true := by
  induction x generalizing y with
  | nil => left; rfl
  | cons a x ih =>
    cases y with
    | nil => right; rfl
    | cons b y =>
      rcases lt_trichotomy a b with h | h | h
      · left; simp [charListLE, h]
      · subst h
        rcases ih y with h2 | h2
        · left; simp [charListLE, lt_irrefl, h2]
        · right; simp [charListLE, lt_irrefl, h2]
      · right; simp [charListLE, h]

theorem charListLE_trans (x y z : List Char) (h1 : charListLE x y = true)
    (h2 : charListLE y z = true) : charListLE x z = true := by
  induction x generalizing y z with
  | nil => rfl
  | cons a x ih =>
    cases y with
    | nil => simp [charListLE] at h1
    | cons b y =>
      cases z with
      | nil => simp [charListLE] at h2
      | cons c z =>
        simp only [charListLE] at h1 h2 ⊢
        by_cases hab : a < b
        · by_cases hbc : b < c
          · simp [lt_trans hab hbc]
          · by_cases hcb : c < b
            · simp [hbc, hcb] at h2
            · have hbceq : b = c := le_antisymm (not_lt.mp hcb) (not_lt.mp hbc)
              subst hbceq; simp [hab]
        · by_cases hba : b < a
          · simp [hab, hba] at h1
          · have habeq : a = b := le_antisymm (not_lt.mp hba) (not_lt.mp hab)
            subst habeq
            simp [lt_irrefl] at h1
            by_cases hac : a < c
            · simp [hac]
            · by_cases hca : c < a
              · simp [hac, hca] at h2
              · simp [hac, hca] at h2 ⊢
                exact ih _ _ h1 h2

section SortLemmas

variable {α : Type}

theorem perm_insertAsc (le : α → α → Bool) (x : α) (l : List α) :
    List.Perm (insertAsc le x l) (x :: l) := by
  induction l with
  | nil => rfl
  | cons y t ih =>
    simp only [insertAsc]
    split
    · rfl
    · exact (ih.cons y).trans (List.Perm.swap x y t)

theorem perm_sortAsc (le : α → α → Bool) (l : List α) :
    List.Perm (sortAsc le l) l := by
  induction l with
  | nil => rfl
  | cons x t ih =>
    exact (perm_insertAsc le x (sortAsc le t)).trans (ih.cons x)

theorem mem_insertAsc (le : α → α → Bool) (x : α) (l : List α) (a : α) :
    a ∈ insertAsc le x l ↔ a = x ∨ a ∈ l := by
  simpa using (perm_insertAsc le x l).mem_iff

theorem pairwise_insertAsc (le : α → α → Bool) (P : α → Prop)
    (total : ∀ a b, P a → P b → le a b = true ∨ le b a = true)
    (htrans : ∀ a b c, P a → P b → P c → le a b = true → le b c = true → le a c = true)
    (x : α) (l : List α) (hx : P x) (hl : ∀ a ∈ l, P a)
    (h : List.Pairwise (fun a b => le a b = true) l) :
    List.Pairwise (fun a b => le a b = true) (insertAsc le x l) := by
  induction l with
  | nil => simp [insertAsc]
  | cons y t ih =>
    rcases List.pairwise_cons.mp h with ⟨hy, ht⟩
    simp only [insertAsc]
    split
    · rename_i hxy
      refine List.pairwise_cons.mpr ⟨?_, h⟩
      intro z hz
      rcases List.mem_cons.mp hz with rfl | hz
      · exact hxy
      · exact htrans x y z hx (hl y (List.mem_cons_self y t))
          (hl z (List.mem_cons_of_mem y hz)) hxy (hy z hz)
    · rename_i hxy
      have hyx : le y x = true := by
        rcases total x y hx (hl y (List.mem_cons_self y t)) with h' | h'
        · exact absurd h' hxy
        · exact h'
      refine List.pairwise_cons.mpr ⟨?_, ?_⟩
      · intro z hz
        rcases (mem_insertAsc le x t z).mp hz with rfl | hz
        · exact hyx
        · exact hy z hz
      · exact ih (fun a ha => hl a (List.mem_cons_of_mem y ha)) ht

theorem pairwise_sortAsc (le : α → α → Bool) (P : α → Prop)
    (total : ∀ a b, P a → P b → le a b = true ∨ le b a = true)
    (htrans : ∀ a b c, P a → P b → P c → le a b = true → le b c = true → le a c = true)
    (l : List α) (hl : ∀ a ∈ l, P a) :
    List.Pairwise (fun a b => le a b = true) (sortAsc le l) := by
  induction l with
  | nil => simp [sortAsc]
  | cons x t ih =>
    simp only [sortAsc]
    apply pairwise_insertAsc le P total htrans x _ (hl x (List.mem_cons_self x t))
    · intro a ha
      exact hl a (List.mem_cons_of_mem x ((perm_sortAsc le t).mem_iff.mp ha))
    · exact ih (fun a ha => hl a (List.mem_cons_of_mem x ha))

end SortLemmas

theorem cols_mapCol (f : Frame) (c : String) (g : Val → Val) :
    (mapCol f c g).cols = f.cols := rfl

theorem rect_mapCol (f : Frame) (c : String) (g : Val → Val) (h : Rect f) :
    Rect (mapCol f c g) := by
  intro r hr
  simp only [mapCol, List.mem_map] at hr
  rcases hr with ⟨r0, hr0, rfl⟩
  simp [mapCol, List.length_set, h r0 hr0]

theorem getCol_mapCol_self (f : Frame) (c : String) (g : Val → Val)
    (hc : c ∈ f.cols) (hr : Rect f) :
    getCol (mapCol f c g) c = (getCol f c).map g := by
  simp only [getCol, mapCol, colOf, List.map_map]
  apply List.map_congr_left
  intro r hrm
  simp only [Function.comp]
  have hidx : f.cols.indexOf c < r.length := by
    rw [hr r hrm]
    exact List.indexOf_lt_length.mpr hc
  exact getD_set_self r _ _ _ hidx

theorem getCol_mapCol_ne (f : Frame) (c c' : String) (g : Val → Val)
    (hne : c' ≠ c) (hr : Rect f) :
    getCol (mapCol f c' g) c = getCol f c := by
  simp only [getCol, mapCol, colOf, List.map_map]
  apply List.map_congr_left
  intro r hrm
  simp only [Function.comp]
  by_cases hc' : c' ∈ f.cols
  · have hij : f.cols.indexOf c' ≠ f.cols.indexOf c := by
      intro he
      by_cases hc : c ∈ f.cols
      · exact hne ((List.indexOf_inj hc' hc).mp he)
      · have hlt : f.cols.indexOf c' < f.cols.length := List.indexOf_lt_length.mpr hc'
        have heq : f.cols.indexOf c = f.cols.length := List.indexOf_eq_length.mpr hc
        omega
    exact getD_set_ne r _ _ _ _ hij
  · have heq : f.cols.indexOf c' = f.cols.length := List.indexOf_eq_length.mpr hc'
    rw [set_of_length_le r _ _ (by rw [hr r hrm, heq])]

theorem getCol_addMetadata (f : Frame) (now : String) (c : String)
    (h1 : c ≠ "last_updated") (h2 : c ≠ "data_freshness") :
    getCol (addMetadata f now) c = getCol f c := by
  simp only [getCol, addMetadata, colOf, List.map_map]
  apply List.map_congr_left
  intro r hrm
  simp only [Function.comp, colOf]
  rw [List.indexOf_cons_ne _ (fun hh => h1 hh.symm),
    List.indexOf_cons_ne _ (fun hh => h2 hh.symm)]
  rfl

theorem cols_foldl_coerce (mets : List String) (f : Frame) :
    (mets.foldl (fun acc m => mapCol acc m (coerceMetric m)) f).cols = f.cols := by
  induction mets generalizing f with
  | nil => rfl
  | cons m t ih =>
    rw [List.foldl_cons, ih]
    rfl

theorem rect_foldl_coerce (mets : List String) (f : Frame) (h : Rect f) :
    Rect (mets.foldl (fun acc m => mapCol acc m (coerceMetric m)) f) := by
  induction mets generalizing f with
  | nil => exact h
  | cons m t ih =>
    rw [List.foldl_cons]
    exact ih _ (rect_mapCol f m _ h)

theorem getCol_foldl_coerce_not_mem (mets : List String) (f : Frame) (c : String)
    (hc : c ∉ mets) (hr : Rect f) :
    getCol (mets.foldl (fun acc m => mapCol acc m (coerceMetric m)) f) c = getCol f c := by
  induction mets generalizing f with
  | nil => rfl
  | cons m t ih =>
    rw [List.foldl_cons]
    have hcm : c ≠ m := fun hh => hc (hh ▸ List.mem_cons_self m t)
    rw [ih (mapCol f m (coerceMetric m)) (fun hh => hc (List.mem_cons_of_mem m hh))
      (rect_mapCol f m _ hr)]
    exact getCol_mapCol_ne f c m _ (fun hh => hcm hh.symm) hr

theorem getCol_foldl_coerce_mem (mets : List String) (f : Frame) (m : String)
    (hm : m ∈ mets) (hnd : mets.Nodup) (hc : m ∈ f.cols) (hr : Rect f) :
    getCol (mets.foldl (fun acc m' => mapCol acc m' (coerceMetric m')) f) m
      = (getCol f m).map (coerceMetric m) := by
  induction mets generalizing f with
  | nil => simp at hm
  | cons m0 t ih =>
    rw [List.foldl_cons]
    rcases List.nodup_cons.mp hnd with ⟨hm0t, hndt⟩
    rcases List.mem_cons.mp hm with rfl | hmt
    · rw [getCol_foldl_coerce_not_mem t _ m hm0t (rect_mapCol f m _ hr)]
      exact getCol_mapCol_self f m _ hc hr
    · by_cases he : m = m0
      · subst he
        exact absurd hmt hm0t
      · rw [ih (mapCol f m0 _) hmt hndt hc (rect_mapCol f m0 _ hr)]
        rw [getCol_mapCol_ne f m m0 _ (fun hh => he hh.symm) hr]

theorem rows_nil_of_isEmpty (f : Frame) (hc : f.cols ≠ []) (h : f.isEmpty = true) :
    f.rows = [] := by
  simp only [Frame.isEmpty, Bool.or_eq_true, List.isEmpty_iff] at h
  rcases h with h | h
  · exact h
  · exact absurd h hc

theorem getCol_formatDataframe_metric (f : Frame) (mets : List String) (now m : String)
    (hm : m ∈ mets) (hnd : mets.Nodup) (hc : m ∈ f.cols) (hr : Rect f)
    (hmd : m ≠ "date") (h1 : m ≠ "last_updated") (h2 : m ≠ "data_freshness") :
    getCol (formatDataframe f mets now) m = (getCol f m).map (coerceMetric m) := by
  unfold formatDataframe
  by_cases he : f.isEmpty
  · have hrows : f.rows = [] := rows_nil_of_isEmpty f
      (fun hnil => by rw [hnil] at hc; simp at hc) he
    simp [he, getCol, hrows]
  · simp only [he, if_false, Bool.false_eq_true]
    by_cases hd : "date" ∈ f.cols
    · simp only [hd, if_true]
      rw [getCol_addMetadata _ now m h1 h2]
      rw [getCol_foldl_coerce_mem mets (mapCol f "date" dateVal) m hm hnd hc
        (rect_mapCol f "date" dateVal hr)]
      rw [getCol_mapCol_ne f m "date" dateVal (fun hh => hmd hh.symm) hr]
    · simp only [hd, if_false]
      rw [getCol_addMetadata _ now m h1 h2]
      rw [getCol_foldl_coerce_mem mets f m hm hnd hc hr]

theorem getCol_formatDataframe_date (f : Frame) (mets : List String) (now : String)
    (hd : "date" ∈ f.cols) (hnm : "date" ∉ mets) (hr : Rect f) :
    getCol (formatDataframe f mets now) "date" = (getCol f "date").map dateVal := by
  unfold formatDataframe
  by_cases he : f.isEmpty
  · have hrows : f.rows = [] := rows_nil_of_isEmpty f
      (fun hnil => by rw [hnil] at hd; simp at hd) he
    simp [he, getCol, hrows]
  · simp only [he, if_false, Bool.false_eq_true, hd, if_true]
    rw [getCol_addMetadata _ now "date" (by decide) (by decide)]
    rw [getCol_foldl_coerce_not_mem mets (mapCol f "date" dateVal) "date" hnm
      (rect_mapCol f "date" dateVal hr)]
    exact getCol_mapCol_self f "date" dateVal hd hr

theorem rect_filter (f : Frame) (p : Row → Bool) (h : Rect f) :
    Rect ⟨f.cols, f.rows.filter p⟩ := by
  intro r hr
  exact h r (List.mem_of_mem_filter hr)

theorem concatFrames_aligned (a b : Frame) (hcols : b.cols = a.cols)
    (hn : a.cols.Nodup) (hra : Rect a) (hrb : Rect b) :
    (concatFrames a b).cols = a.cols ∧ (concatFrames a b).rows = a.rows ++ b.rows := by
  have hfilter : b.cols.filter (fun c => !decide (c ∈ a.cols)) = [] := by
    apply List.filter_eq_nil_iff.mpr
    intro c hc
    rw [hcols] at hc
    simp [hc]
  have hcols2 : a.cols ++ b.cols.filter (fun c => !decide (c ∈ a.cols)) = a.cols := by
    rw [hfilter, List.append_nil]
  constructor
  · simp only [concatFrames]
    exact hcols2
  · simp only [concatFrames, hcols2]
    have hid : ∀ (g : Frame), g.cols = a.cols → Rect g → ∀ r ∈ g.rows,
        a.cols.map (fun c => if c ∈ g.cols then r.getD (g.cols.indexOf c) Val.na else Val.na)
          = r := by
      intro g hg hrg r hr
      have : a.cols.map (fun c => if c ∈ g.cols then r.getD (g.cols.indexOf c) Val.na else Val.na)
          = a.cols.map (fun c => r.getD (a.cols.indexOf c) Val.na) := by
        apply List.map_congr_left
        intro c hc
        rw [hg]
        simp [hc]
      rw [this]
      exact map_getD_indexOf a.cols r hn (by rw [hrg r hr, hg]) Val.na
    rw [List.map_congr_left (hid a rfl hra), List.map_congr_left (hid b hcols hrb)]
    simp

theorem combineData_of_empty (df existing : Frame) (h : existing.isEmpty = true) :
    combineData df existing = df := by
  unfold combineData
  simp [h]

theorem combineData_rows (df existing : Frame)
    (hne : existing.isEmpty = false)
    (hcols : existing.cols = df.cols)
    (hn : df.cols.Nodup)
    (hrd : Rect df) (hre : Rect existing)
    (hd : "date" ∈ df.cols) :
    (combineData df existing).rows
      = df.rows ++ existing.rows.filter
          (fun r => !decide (colOf existing.cols "date" r ∈ getCol df "date")) := by
  have hde : "date" ∈ existing.cols := by rw [hcols]; exact hd
  have hcond : existing.isEmpty = false ∧ "date" ∈ df.cols ∧ "date" ∈ existing.cols :=
    ⟨hne, hd, hde⟩
  have hmemE : ∀ r ∈ existing.rows, colOf existing.cols "date" r ∈ getCol existing "date" := by
    intro r hr
    exact List.mem_map_of_mem _ hr
  have hdup_iff : ∀ r ∈ existing.rows,
      (colOf existing.cols "date" r
          ∈ (getCol df "date").filter (fun d => decide (d ∈ getCol existing "date")))
        ↔ colOf existing.cols "date" r ∈ getCol df "date" := by
    intro r hr
    rw [List.mem_filter]
    constructor
    · intro ⟨h1, _⟩; exact h1
    · intro h1; exact ⟨h1, by simp [hmemE r hr]⟩
  unfold combineData
  simp only [hcond, and_self, if_true, hne, hd, hde]
  by_cases hdupnil :
      (getCol df "date").filter (fun d => decide (d ∈ getCol existing "date")) = []
  · simp only [hdupnil, ne_eq, not_true_eq_false, if_false]
    have hkeep : existing.rows.filter
        (fun r => !decide (colOf existing.cols "date" r ∈ getCol df "date")) = existing.rows := by
      apply List.filter_eq_self.mpr
      intro r hr
      have : colOf existing.cols "date" r ∉ getCol df "date" := by
        intro hmem
        have := (hdup_iff r hr).mpr hmem
        rw [hdupnil] at this
        simp at this
      simp [this]
    rw [hkeep]
    have hee : existing.isEmpty = false := hne
    simp only [Frame.isEmpty] at hee ⊢
    rw [if_neg (by simp [hee])]
    exact (concatFrames_aligned df existing hcols hn hrd hre).2
  · simp only [hdupnil, ne_eq, not_false_eq_true, if_true]
    have hfeq : existing.rows.filter
        (fun r => !decide (colOf existing.cols "date" r
          ∈ (getCol df "date").filter (fun d => decide (d ∈ getCol existing "date"))))
        = existing.rows.filter
          (fun r => !decide (colOf existing.cols "date" r ∈ getCol df "date")) := by
      apply List.filter_congr
      intro r hr
      have := hdup_iff r hr
      by_cases hx : colOf existing.cols "date" r ∈ getCol df "date"
      · simp [hx, this.mpr hx]
      · have : colOf existing.cols "date" r
            ∉ (getCol df "date").filter (fun d => decide (d ∈ getCol existing "date")) := by
          intro hmem
          exact hx ((hdup_iff r hr).mp hmem)
        simp [hx, this]
    rw [hfeq]
    set rowsF := existing.rows.filter
      (fun r => !decide (colOf existing.cols "date" r ∈ getCol df "date")) with hrowF
    by_cases hfe : (Frame.mk existing.cols rowsF).isEmpty = true
    · rw [if_pos hfe]
      have hcne : existing.cols ≠ [] := by
        intro hnil
        rw [hnil] at hde
        simp at hde
      have : rowsF = [] := rows_nil_of_isEmpty (Frame.mk existing.cols rowsF) hcne hfe
      rw [this, List.append_nil]
    · rw [if_neg hfe]
      have := concatFrames_aligned df ⟨existing.cols, rowsF⟩ hcols hn hrd
        (rect_filter existing _ hre)
      exact this.2

theorem perm_sortByDateDesc (f : Frame) :
    List.Perm (sortByDateDesc f).rows f.rows := by
  unfold sortByDateDesc
  have h1 : List.Perm
      (sortAsc (fun a b => valLE (colOf f.cols "date" a) (colOf f.cols "date" b))
        (f.rows.filter (fun r => !decide (colOf f.cols "date" r = Val.na)))).reverse
      (f.rows.filter (fun r => !decide (colOf f.cols "date" r = Val.na))) :=
    (List.reverse_perm _).trans (perm_sortAsc _ _)
  have h2 := h1.append_right (f.rows.filter (fun r => decide (colOf f.cols "date" r = Val.na)))
  refine h2.trans ?_
  have h3 := my_filter_append_perm (fun r => !decide (colOf f.cols "date" r = Val.na)) f.rows
  have h4 : (fun r => !!decide (colOf f.cols "date" r = Val.na))
      = fun r => decide (colOf f.cols "date" r = Val.na) := by
    funext r
    simp
  rw [h4] at h3
  exact h3

theorem perm_updateFinal (df existing : Frame) :
    List.Perm (updateFinal df existing).rows (combineData df existing).rows := by
  simp only [updateFinal]
  split
  · exact perm_sortByDateDesc _
  · exact List.Perm.refl _

theorem updateFinal_rows_perm_of_empty (df existing : Frame) (h : existing.isEmpty = true) :
    List.Perm (updateFinal df existing).rows df.rows := by
  have hp := perm_updateFinal df existing
  rw [combineData_of_empty df existing h] at hp
  exact hp

theorem pairwise_sortByDateDesc (f : Frame)
    (hs : ∀ r ∈ f.rows, ∃ str, colOf f.cols "date" r = Val.s str) :
    List.Pairwise
      (fun a b => valLE (colOf f.cols "date" b) (colOf f.cols "date" a) = true)
      (sortByDateDesc f).rows := by
  simp only [sortByDateDesc]
  have hoks : f.rows.filter (fun r => !decide (colOf f.cols "date" r = Val.na)) = f.rows := by
    apply List.filter_eq_self.mpr
    intro r hr
    rcases hs r hr with ⟨str, hstr⟩
    simp [hstr]
  have hnas : f.rows.filter (fun r => decide (colOf f.cols "date" r = Val.na)) = [] := by
    apply List.filter_eq_nil_iff.mpr
    intro r hr
    rcases hs r hr with ⟨str, hstr⟩
    simp [hstr]
  rw [hoks, hnas, List.append_nil]
  rw [List.pairwise_reverse]
  apply pairwise_sortAsc _ (fun r => ∃ str, colOf f.cols "date" r = Val.s str)
  · intro a b ⟨sa, ha⟩ ⟨sb, hb⟩
    rw [ha, hb]
    exact charListLE_total sa.data sb.data
  · intro a b c ⟨sa, ha⟩ ⟨sb, hb⟩ ⟨sc, hc⟩ h1 h2
    rw [ha, hb] at h1
    rw [hb, hc] at h2
    rw [ha, hc]
    exact charListLE_trans sa.data sb.data sc.data h1 h2
  · exact hs

/-- A cell that is a non-negative Int64 integer (claim C3's language). -/
def isNonnegInt (v : Val) : Bool :=
  match v with
  | .i n => decide (0 ≤ n)
  | _ => false

/-- A finite floating-point cell (claim C4's language): an actual number;
NaN — pandas' missing marker — is not finite. -/
def isFiniteVal (v : Val) : Bool :=
  match v with
  | .q _ => true
  | .i _ => true
  | _ => false

/-- A string cell. -/
def isStrVal (v : Val) : Bool :=
  match v with
  | .s _ => true
  | _ => false

/-- A source cell for a count metric that cannot make the pipeline
misbehave: a string that is either unparseable or parses to a
non-negative integer (as every GA4 count-metric value does). -/
def countSrcOK (v : Val) : Bool :=
  match v with
  | .s str =>
      match parseRat str with
      | some x => decide (x.den = 1 ∧ 0 ≤ x)
      | none => true
  | _ => false

theorem isStrVal_iff (v : Val) : isStrVal v = true ↔ ∃ str, v = Val.s str := by
  cases v <;> simp [isStrVal]

theorem countCoerce_unparseable (str : String) (h : parseRat str = none) :
    countCoerce (Val.s str) = Val.i 0 := by
  simp [countCoerce, toNumeric, h, fillna0, astypeInt64]

theorem countCoerce_parseable (str : String) (x : ℚ) (h : parseRat str = some x)
    (hden : x.den = 1) (hpos : 0 ≤ x) :
    countCoerce (Val.s str) = Val.i x.num ∧ 0 ≤ x.num := by
  constructor
  · simp [countCoerce, toNumeric, h, fillna0, astypeInt64, hden]
  · exact Rat.num_nonneg.mpr hpos

theorem countCoerce_ok (v : Val) (h : countSrcOK v = true) :
    isNonnegInt (countCoerce v) = true := by
  cases v with
  | s str =>
    simp only [countSrcOK] at h
    cases hp : parseRat str with
    | some x =>
      rw [hp] at h
      simp only [decide_eq_true_eq] at h
      rcases (countCoerce_parseable str x hp h.1 h.2) with ⟨he, hn⟩
      rw [he]
      simp [isNonnegInt, hn]
    | none =>
      rw [countCoerce_unparseable str hp]
      simp [isNonnegInt]
  | i n => simp [countSrcOK] at h
  | q x => simp [countSrcOK] at h
  | na => simp [countSrcOK] at h

theorem ratioCoerce_unparseable (str : String) (h : parseRat str = none) :
    ratioCoerce (Val.s str) = Val.na := by
  simp [ratioCoerce, toNumeric, h, round4]

theorem ratioCoerce_parseable (str : String) (x : ℚ) (h : parseRat str = some x) :
    ratioCoerce (Val.s str) = Val.q ((rhe (x * 10000) : ℚ) / 10000) := by
  simp [ratioCoerce, toNumeric, h, round4]

theorem ratioCoerce_na_or_rounded (v : Val) (h : isStrVal v = true) :
    ratioCoerce v = Val.na ∨ ∃ z : ℤ, ratioCoerce v = Val.q ((z : ℚ) / 10000) := by
  rcases (isStrVal_iff v).mp h with ⟨str, rfl⟩
  cases hp : parseRat str with
  | some x =>
    right
    exact ⟨rhe (x * 10000), ratioCoerce_parseable str x hp⟩
  | none =>
    left
    exact ratioCoerce_unparseable str hp

theorem formatDate_shape (s t : String) (h : formatDate s = some t) :
    t.data = s.data.take 4 ++ ['-'] ++ (s.data.drop 4).take 2 ++ ['-'] ++ s.data.drop 6 := by
  simp only [formatDate] at h
  split at h
  · split at h
    · rw [← Option.some.inj h]
    · exact absurd h (by simp)
  · exact absurd h (by simp)

/-- Claim C3, as stated, is false: `pd.to_numeric(...).fillna(0).astype('Int64')`
(line 158) keeps the sign of a parseable negative source value, so a fetched
record set whose `sessions` column holds the string `-1` yields a formatted
column containing the negative integer `-1`, not a non-negative integer. -/
theorem count_metric_negative_counterexample :
    getCol (formatDataframe (Frame.mk ["sessions"] [[Val.s "-1"]]) ["sessions"] "2024-01-01 00:00:00") "sessions"
      = [Val.i (-1)]
    ∧ ((getCol (formatDataframe (Frame.mk ["sessions"] [[Val.s "-1"]]) ["sessions"] "2024-01-01 00:00:00") "sessions").all
        isNonnegInt) = false := by
  constructor
  · decide
  · decide

/-- Claim C3 (amended): for every fetched record set and declared metric
other than the ratio/duration ones, the formatted column is the source
column mapped through the count coercion of line 158; provided every
source value is an unparseable string or parses to a non-negative integer
(as GA4 count-metric values do), the column contains only non-negative
integers, and every missing/unparseable source value is mapped to 0. -/
theorem count_metric_column_nonneg (f : Frame) (mets : List String) (now m : String)
    (hm : m ∈ mets) (hnd : mets.Nodup) (hc : m ∈ f.cols) (hr : Rect f)
    (hratio : m ∉ ratioMetrics) (hmd : m ≠ "date")
    (h1 : m ≠ "last_updated") (h2 : m ≠ "data_freshness")
    (hsrc : ∀ v ∈ getCol f m, countSrcOK v = true) :
    getCol (formatDataframe f mets now) m = (getCol f m).map countCoerce
    ∧ (∀ v ∈ getCol (formatDataframe f mets now) m, isNonnegInt v = true)
    ∧ (∀ str : String, parseRat str = none → countCoerce (Val.s str) = Val.i 0) := by
  have hcc : coerceMetric m = countCoerce := by
    simp [coerceMetric, hratio]
  have hmap := getCol_formatDataframe_metric f mets now m hm hnd hc hr hmd h1 h2
  rw [hcc] at hmap
  refine ⟨hmap, ?_, fun str h => countCoerce_unparseable str h⟩
  intro v hv
  rw [hmap] at hv
  rcases List.mem_map.mp hv with ⟨v0, hv0, rfl⟩
  exact countCoerce_ok v0 (hsrc v0 hv0)

def countWitnessFrame : Frame := Frame.mk ["date", "sessions"] [[Val.s "20240315", Val.s "5"], [Val.s "20240316", Val.s "(not set)"]]

theorem count_metric_column_nonneg_witness :
    (∀ v ∈ getCol countWitnessFrame "sessions", countSrcOK v = true)
    ∧ (getCol (formatDataframe countWitnessFrame ["sessions"] "2024-03-16 00:00:00") "sessions"
        = (getCol countWitnessFrame "sessions").map countCoerce
      ∧ (∀ v ∈ getCol (formatDataframe countWitnessFrame ["sessions"] "2024-03-16 00:00:00") "sessions",
          isNonnegInt v = true)
      ∧ (∀ str : String, parseRat str = none → countCoerce (Val.s str) = Val.i 0)) :=
  ⟨by decide,
   count_metric_column_nonneg countWitnessFrame ["sessions"] "2024-03-16 00:00:00" "sessions"
     (by decide) (by decide) (by decide) (by decide) (by decide) (by decide) (by decide)
     (by decide) (by decide)⟩

/-- Claim C4, as stated, is false: `pd.to_numeric(..., errors='coerce').round(4)`
(line 156) turns an unparseable source value into NaN, and `round` keeps
NaN, so a fetched record set whose `bounceRate` column holds the string
`abc` yields a formatted column containing NaN — not a finite
floating-point value. -/
theorem ratio_metric_nan_counterexample :
    getCol (formatDataframe (Frame.mk ["bounceRate"] [[Val.s "abc"]]) ["bounceRate"] "2024-01-01 00:00:00") "bounceRate"
      = [Val.na]
    ∧ ((getCol (formatDataframe (Frame.mk ["bounceRate"] [[Val.s "abc"]]) ["bounceRate"] "2024-01-01 00:00:00") "bounceRate").all
        isFiniteVal) = false := by
  constructor
  · decide
  · decide

/-- Claim C4 (amended): for every fetched record set, the ratio/duration
metric columns (`bounceRate`, `averageSessionDuration`) are the source
columns mapped through the float coercion of line 156; every cell of the
formatted column is either NaN (exactly when the source value is missing
or unparseable) or a finite value that is an integer multiple of 10⁻⁴,
i.e. rounded to at most 4 decimal digits. -/
theorem ratio_metric_column_rounded (f : Frame) (mets : List String) (now m : String)
    (hm : m ∈ mets) (hnd : mets.Nodup) (hc : m ∈ f.cols) (hr : Rect f)
    (hratio : m ∈ ratioMetrics) (hmd : m ≠ "date")
    (h1 : m ≠ "last_updated") (h2 : m ≠ "data_freshness")
    (hsrc : ∀ v ∈ getCol f m, isStrVal v = true) :
    getCol (formatDataframe f mets now) m = (getCol f m).map ratioCoerce
    ∧ (∀ v ∈ getCol (formatDataframe f mets now) m,
        v = Val.na ∨ ∃ z : ℤ, v = Val.q ((z : ℚ) / 10000))
    ∧ (∀ str : String, parseRat str = none → ratioCoerce (Val.s str) = Val.na) := by
  have hcc : coerceMetric m = ratioCoerce := by
    simp [coerceMetric, hratio]
  have hmap := getCol_formatDataframe_metric f mets now m hm hnd hc hr hmd h1 h2
  rw [hcc] at hmap
  refine ⟨hmap, ?_, fun str h => ratioCoerce_unparseable str h⟩
  intro v hv
  rw [hmap] at hv
  rcases List.mem_map.mp hv with ⟨v0, hv0, rfl⟩
  rcases ratioCoerce_na_or_rounded v0 (hsrc v0 hv0) with h | ⟨z, hz⟩
  · left; exact h
  · right; exact ⟨z, hz⟩

def ratioWitnessFrame : Frame :=
  Frame.mk ["date", "bounceRate"] [[Val.s "20240315", Val.s "0.48315"], [Val.s "20240316", Val.s ""]]

theorem ratio_metric_column_rounded_witness :
    (∀ v ∈ getCol ratioWitnessFrame "bounceRate", isStrVal v = true)
    ∧ (getCol (formatDataframe ratioWitnessFrame ["bounceRate"] "2024-03-16 00:00:00") "bounceRate"
        = (getCol ratioWitnessFrame "bounceRate").map ratioCoerce
      ∧ (∀ v ∈ getCol (formatDataframe ratioWitnessFrame ["bounceRate"] "2024-03-16 00:00:00") "bounceRate",
          v = Val.na ∨ ∃ z : ℤ, v = Val.q ((z : ℚ) / 10000))
      ∧ (∀ str : String, parseRat str = none → ratioCoerce (Val.s str) = Val.na)) :=
  ⟨by decide,
   ratio_metric_column_rounded ratioWitnessFrame ["bounceRate"] "2024-03-16 00:00:00" "bounceRate"
     (by decide) (by decide) (by decide) (by decide) (by decide) (by decide) (by decide)
     (by decide) (by decide)⟩

/-- Claim C5, as stated, is false at dates outside the pandas `Timestamp`
range: `pd.to_datetime('16000101', format='%Y%m%d', errors='coerce')` is
out of bounds for nanosecond timestamps (`Timestamp.min` is 1677-09-21)
and is coerced to NaT, so the value `16000101` — which is in compact
numeric `YYYYMMDD` form — becomes the missing marker instead of the
hyphenated string `1600-01-01`. -/
theorem date_out_of_bounds_counterexample :
    formatDate "16000101" = none
    ∧ dateVal (Val.s "16000101") = Val.na
    ∧ formatDate "16000101" ≠ some "1600-01-01" := by
  refine ⟨by decide, by decide, by decide⟩

/-- Claim C5 (amended): in every fetched record set with a `date` column,
the column is mapped cell-wise through the date reformatting of line 151;
every parsed value is printed back in hyphenated `YYYY-MM-DD` form (the
example `20240315` becomes `2024-03-15`), and every value that does not
parse — not 8 digits, not a valid calendar date, or outside the pandas
`Timestamp` range — becomes the missing marker without failing the whole
batch. -/
theorem date_column_reformatted (f : Frame) (mets : List String) (now : String)
    (hd : "date" ∈ f.cols) (hnm : "date" ∉ mets) (hr : Rect f) :
    getCol (formatDataframe f mets now) "date" = (getCol f "date").map dateVal
    ∧ (∀ s t : String, formatDate s = some t →
        t.data = s.data.take 4 ++ ['-'] ++ (s.data.drop 4).take 2 ++ ['-'] ++ s.data.drop 6)
    ∧ (∀ s : String, formatDate s = none → dateVal (Val.s s) = Val.na)
    ∧ dateVal (Val.s "20240315") = Val.s "2024-03-15" := by
  refine ⟨getCol_formatDataframe_date f mets now hd hnm hr,
    fun s t h => formatDate_shape s t h, ?_, by decide⟩
  intro s h
  simp [dateVal, h]

def dateWitnessFrame : Frame :=
  Frame.mk ["date", "sessions"] [[Val.s "20240315", Val.s "5"], [Val.s "bad", Val.s "3"]]

theorem date_column_reformatted_witness :
    ("date" ∈ dateWitnessFrame.cols ∧ Rect dateWitnessFrame)
    ∧ (getCol (formatDataframe dateWitnessFrame ["sessions"] "2024-03-16 00:00:00") "date"
        = (getCol dateWitnessFrame "date").map dateVal
      ∧ (∀ s t : String, formatDate s = some t →
          t.data = s.data.take 4 ++ ['-'] ++ (s.data.drop 4).take 2 ++ ['-'] ++ s.data.drop 6)
      ∧ (∀ s : String, formatDate s = none → dateVal (Val.s s) = Val.na)
      ∧ dateVal (Val.s "20240315") = Val.s "2024-03-15") :=
  ⟨⟨by decide, by decide⟩,
   date_column_reformatted dateWitnessFrame ["sessions"] "2024-03-16 00:00:00"
     (by decide) (by decide) (by decide)⟩

/-- Claim C1: when both the new and the (non-empty) existing record set
carry a `date` column (and share the schema the pipeline always writes:
same column list, no duplicate names, rectangular rows), the merged result
of lines 211-228 is exactly the new rows followed by those existing rows
whose date is not among the dates of the new data; consequently every
merged row whose date occurs in the new data is a row of the new data. -/
theorem merge_new_rows_supersede (df existing : Frame)
    (hne : existing.isEmpty = false) (hcols : existing.cols = df.cols)
    (hn : df.cols.Nodup) (hrd : Rect df) (hre : Rect existing)
    (hd : "date" ∈ df.cols) :
    (combineData df existing).rows
      = df.rows ++ existing.rows.filter
          (fun r => !decide (colOf existing.cols "date" r ∈ getCol df "date"))
    ∧ ∀ r ∈ (combineData df existing).rows,
        colOf df.cols "date" r ∈ getCol df "date" → r ∈ df.rows := by
  have h1 := combineData_rows df existing hne hcols hn hrd hre hd
  refine ⟨h1, ?_⟩
  intro r hrm hdate
  rw [h1] at hrm
  rcases List.mem_append.mp hrm with h | h
  · exact h
  · have hp := List.of_mem_filter h
    rw [hcols] at hp
    simp only [Bool.not_eq_true', decide_eq_false_iff_not] at hp
    exact absurd hdate hp

def newFrameW : Frame :=
  Frame.mk ["date", "sessions"] [[Val.s "2024-01-03", Val.s "7"]]

def existingFrameW : Frame :=
  Frame.mk ["date", "sessions"]
    [[Val.s "2024-01-03", Val.s "9"], [Val.s "2024-01-02", Val.s "4"], [Val.s "2024-01-01", Val.s "2"]]

theorem merge_new_rows_supersede_witness :
    (existingFrameW.isEmpty = false ∧ existingFrameW.cols = newFrameW.cols
      ∧ Rect newFrameW ∧ Rect existingFrameW)
    ∧ ((combineData newFrameW existingFrameW).rows
        = newFrameW.rows ++ existingFrameW.rows.filter
            (fun r => !decide (colOf existingFrameW.cols "date" r ∈ getCol newFrameW "date"))
      ∧ ∀ r ∈ (combineData newFrameW existingFrameW).rows,
          colOf newFrameW.cols "date" r ∈ getCol newFrameW "date" → r ∈ newFrameW.rows) :=
  ⟨⟨by decide, by decide, by decide, by decide⟩,
   merge_new_rows_supersede newFrameW existingFrameW
     (by decide) (by decide) (by decide) (by decide) (by decide) (by decide)⟩

/-- Claim C2, as stated, is false in its tie-breaking half:
`final_df.sort_values('date', ascending=False)` (line 232) reverses the
ascending argsort, so rows with equal dates come out in the reverse of
their concatenation order (pandas' `nargsort` computes the ascending
order — stable here, numpy insertion-sorts arrays this small — and then
reverses the whole permutation).  With two equal-date rows A then B from
the concatenation step, the written order is B then A. -/
theorem sort_tie_order_counterexample :
    (combineData
        (Frame.mk ["date", "country"]
          [[Val.s "2024-01-01", Val.s "A"], [Val.s "2024-01-01", Val.s "B"]])
        emptyFrame).rows
      = [[Val.s "2024-01-01", Val.s "A"], [Val.s "2024-01-01", Val.s "B"]]
    ∧ (updateFinal
        (Frame.mk ["date", "country"]
          [[Val.s "2024-01-01", Val.s "A"], [Val.s "2024-01-01", Val.s "B"]])
        emptyFrame).rows
      = [[Val.s "2024-01-01", Val.s "B"], [Val.s "2024-01-01", Val.s "A"]] := by
  constructor
  · decide
  · decide

/-- Claim C2 (amended): for every reconciled record set whose `date`
column exists and holds only strings, the written row sequence is
non-increasing by date string; rows with equal dates are NOT guaranteed to
keep their concatenation order (the implementation reverses an ascending
sort, so small equal-date runs come out reversed). -/
theorem written_rows_date_descending (df existing : Frame)
    (hd : "date" ∈ (combineData df existing).cols)
    (hs : ∀ r ∈ (combineData df existing).rows,
      isStrVal (colOf (combineData df existing).cols "date" r) = true) :
    List.Pairwise
      (fun a b => valLE (colOf (combineData df existing).cols "date" b)
        (colOf (combineData df existing).cols "date" a) = true)
      (updateFinal df existing).rows := by
  simp only [updateFinal, hd, if_true]
  apply pairwise_sortByDateDesc
  intro r hr
  exact (isStrVal_iff _).mp (hs r hr)

theorem written_rows_date_descending_witness :
    ("date" ∈ (combineData newFrameW existingFrameW).cols
      ∧ ∀ r ∈ (combineData newFrameW existingFrameW).rows,
          isStrVal (colOf (combineData newFrameW existingFrameW).cols "date" r) = true)
    ∧ List.Pairwise
        (fun a b => valLE (colOf (combineData newFrameW existingFrameW).cols "date" b)
          (colOf (combineData newFrameW existingFrameW).cols "date" a) = true)
        (updateFinal newFrameW existingFrameW).rows :=
  ⟨⟨by decide, by decide⟩,
   written_rows_date_descending newFrameW existingFrameW (by decide) (by decide)⟩

/-- Claim C8, as stated, is false in its ordering half: with an empty
existing set the merge of lines 222-228 keeps the new frame unchanged,
but line 232 still sorts it by date descending before writing, so a new
set whose dates arrive ascending is written reordered, not "simply" as
is. -/
theorem empty_existing_sort_counterexample :
    emptyFrame.isEmpty = true
    ∧ combineData (Frame.mk ["date"] [[Val.s "2024-01-01"], [Val.s "2024-01-02"]]) emptyFrame
      = Frame.mk ["date"] [[Val.s "2024-01-01"], [Val.s "2024-01-02"]]
    ∧ (updateFinal (Frame.mk ["date"] [[Val.s "2024-01-01"], [Val.s "2024-01-02"]]) emptyFrame).rows
      = [[Val.s "2024-01-02"], [Val.s "2024-01-01"]]
    ∧ updateFinal (Frame.mk ["date"] [[Val.s "2024-01-01"], [Val.s "2024-01-02"]]) emptyFrame
      ≠ Frame.mk ["date"] [[Val.s "2024-01-01"], [Val.s "2024-01-02"]] := by
  refine ⟨by decide, by decide, by decide, by decide⟩

/-- Claim C8 (amended): if the existing record set read from the
destination is empty, the merged result is exactly the new record set;
the frame actually written is that set after the final date sort — the
same rows as a multiset, and literally the new set whenever no date
column exists. -/
theorem empty_existing_result_is_new (df existing : Frame)
    (h : existing.isEmpty = true) :
    combineData df existing = df
    ∧ List.Perm (updateFinal df existing).rows df.rows
    ∧ ("date" ∉ df.cols → updateFinal df existing = df) := by
  refine ⟨combineData_of_empty df existing h,
    updateFinal_rows_perm_of_empty df existing h, ?_⟩
  intro hnd
  simp only [updateFinal, combineData_of_empty df existing h]
  rw [if_neg hnd]

theorem empty_existing_result_is_new_witness :
    emptyFrame.isEmpty = true
    ∧ (combineData newFrameW emptyFrame = newFrameW
      ∧ List.Perm (updateFinal newFrameW emptyFrame).rows newFrameW.rows
      ∧ ("date" ∉ newFrameW.cols → updateFinal newFrameW emptyFrame = newFrameW)) :=
  ⟨by decide, empty_existing_result_is_new newFrameW emptyFrame (by decide)⟩

/-- Claim C9: `get_existing_sheet_data` (lines 166-185) catches every
failure of the underlying read and returns an empty record set, so after
a failed read the frame written by `update_google_sheet` holds exactly
the newly fetched rows (as a multiset — the date sort may reorder them),
silently discarding all previously stored rows. -/
theorem failed_read_keeps_only_new_rows (e : String) (df : Frame) :
    getExistingSheetData (Except.error e) = emptyFrame
    ∧ List.Perm (updateFinal df (getExistingSheetData (Except.error e))).rows df.rows := by
  refine ⟨rfl, ?_⟩
  exact updateFinal_rows_perm_of_empty df emptyFrame rfl

/-- Claim C6: a sync run in which the API returns zero rows builds the
empty record set (line 113, no error raised), and `sync_data`
short-circuits at lines 278-280 before any sheet interaction — no open,
clear or write happens (`none`); even `update_google_sheet` itself, given
an empty frame, returns at line 191 before touching the sheet. -/
theorem zero_rows_no_write (dims mets : List String) (now : String)
    (readRes : Except String Frame) (openFails writeFails formattingFails : Bool) :
    fetchRowsToFrame [] dims mets now = emptyFrame
    ∧ syncData [] dims mets now readRes openFails writeFails formattingFails = none
    ∧ updateGoogleSheet emptyFrame readRes openFails writeFails formattingFails
        = Except.ok (none, ["No data to update"]) := by
  refine ⟨rfl, ?_, rfl⟩
  simp [syncData, fetchRowsToFrame, emptyFrame, Frame.isEmpty]

/-- Claim C7: for a non-empty reconciled record set, a failure inside
`format_sheet_header` (lines 247-263) is caught there and surfaces only
as a logged warning — the write still completes and the run succeeds —
whereas a failure opening the spreadsheet/worksheet or clearing/writing
it is re-raised at line 245 and propagates to the caller. -/
theorem header_format_failure_nonfatal (df : Frame) (readRes : Except String Frame)
    (writeFails formattingFails : Bool) (hne : df.isEmpty = false) :
    updateGoogleSheet df readRes false false true
      = Except.ok (some (updateFinal df (getExistingSheetData readRes)),
          ["Header formatting failed"])
    ∧ updateGoogleSheet df readRes true writeFails formattingFails
      = Except.error "Error updating Google Sheet: open failed"
    ∧ updateGoogleSheet df readRes false true formattingFails
      = Except.error "Error updating Google Sheet: clear/write failed" := by
  unfold updateGoogleSheet
  simp [hne, formatSheetHeader]

theorem header_format_failure_nonfatal_witness :
    newFrameW.isEmpty = false
    ∧ (updateGoogleSheet newFrameW (Except.ok emptyFrame) false false true
        = Except.ok (some (updateFinal newFrameW (getExistingSheetData (Except.ok emptyFrame))),
            ["Header formatting failed"])
      ∧ updateGoogleSheet newFrameW (Except.ok emptyFrame) true false false
        = Except.error "Error updating Google Sheet: open failed"
      ∧ updateGoogleSheet newFrameW (Except.ok emptyFrame) false true false
        = Except.error "Error updating Google Sheet: clear/write failed") :=
  ⟨by decide,
   header_format_failure_nonfatal newFrameW (Except.ok emptyFrame) false false (by decide)⟩

/-- Claim C10: `format_dataframe` returns an empty frame unchanged (lines
146-147): no date reformatting, no metric coercion, and in particular the
two metadata columns are not prepended — the empty fetched record set
(`pd.DataFrame()`) keeps no columns at all. -/
theorem format_empty_identity (f : Frame) (mets : List String) (now : String)
    (h : f.isEmpty = true) :
    formatDataframe f mets now = f
    ∧ formatDataframe emptyFrame mets now = emptyFrame
    ∧ (formatDataframe emptyFrame mets now).cols = [] := by
  refine ⟨?_, rfl, rfl⟩
  simp [formatDataframe, h]

theorem format_empty_identity_witness :
    (Frame.mk ["date", "sessions"] []).isEmpty = true
    ∧ (formatDataframe (Frame.mk ["date", "sessions"] []) ["sessions"] "2024-01-01 00:00:00"
        = Frame.mk ["date", "sessions"] []
      ∧ formatDataframe emptyFrame ["sessions"] "2024-01-01 00:00:00" = emptyFrame
      ∧ (formatDataframe emptyFrame ["sessions"] "2024-01-01 00:00:00").cols = []) :=
  ⟨by decide,
   format_empty_identity (Frame.mk ["date", "sessions"] []) ["sessions"] "2024-01-01 00:00:00"
     (by decide)⟩
